import Mathlib

/-!
Shallow embedding of `src/src/framed.rs` (the `Framed` transport of
`ib_tws_rs`): a combinator turning a raw byte channel into a stream/sink of
frames via a pluggable codec.

Modelling conventions:
* bytes are `Nat`; byte buffers (`BytesMut`) are `List Nat` together with a
  capacity counter (`read_cap`) so that `reserve` is observable;
* the codec (`super::codec::{Decoder, Encoder}`, not part of this file's
  source) is an abstract record of pure functions over an explicit codec
  state type `σ`: `decode`/`decode_eof` take the buffer and return the new
  codec state, the new buffer and a result (frame / incomplete / error),
  `encode` returns the bytes to append to `write_buf` or an error;
* the underlying async channel is an oracle: for reads, a list of chunks
  (one chunk per completed `read_buf` call, the empty chunk being a 0-byte
  read, i.e. EOF; oracle exhaustion models a read that returns `Pending`);
  for writes, a list of accepted byte counts (one per `poll_write` call,
  exhaustion models `Pending`), plus a flag saying whether `flush` would
  suspend;
* each transition records a trace of events (decode / decode_eof calls,
  reserve, completed reads, write attempts, flush) so that "is invoked"
  claims are statements about traces;
* `Poll::Pending`, panics (`unwrap` on `None`, `assert!`, `todo!`,
  `BytesMut::split_to` out of range) are explicit outcome constructors.
-/

namespace FramedRs

/-- Result of one `Decoder::decode` / `Decoder::decode_eof` call:
`Ok(Some(item))`, `Ok(None)` ("incomplete"), or `Err(e)`. -/
inductive DecodeResult (I E : Type) where
  | frame (i : I)
  | incomplete
  | fail (e : E)
deriving DecidableEq

/-- The codec capability (`super::codec::{Decoder, Encoder}`): stateful
decode / end-of-stream decode / encode, with codec state `σ`, item type `I`
and error type `E`.  `decode` and `decode_eof` consume bytes from the head
of the buffer they are given and return the remaining buffer. -/
structure Codec (σ I E : Type) where
  decode : σ → List Nat → σ × List Nat × DecodeResult I E
  decode_eof : σ → List Nat → σ × List Nat × DecodeResult I E
  encode : σ → I → σ × Except E (List Nat)

/-- `const INITIAL_CAPACITY: usize = 8 * 1024;` -/
def INITIAL_CAPACITY : Nat := 8 * 1024

/-- `const BACKPRESSURE_BOUNDARY: usize = INITIAL_CAPACITY;` -/
def BACKPRESSURE_BOUNDARY : Nat := INITIAL_CAPACITY

/-- The `Framed<S, C>` struct: codec state, read buffer (with its capacity),
`eof` and `is_readable` flags, write buffer.  The raw I/O handle `io` is
externalised into the read/write oracles of the operations. -/
structure Framed (σ : Type) where
  codecSt : σ
  read_buf : List Nat
  read_cap : Nat
  eof : Bool
  is_readable : Bool
  write_buf : List Nat
deriving DecidableEq

/-- `Framed::new`: empty buffers with `INITIAL_CAPACITY`, `eof = false`,
`is_readable = false`. -/
def Framed.new (st : σ) : Framed σ :=
  ⟨st, [], INITIAL_CAPACITY, false, false, []⟩

/-- Events on the read path, recorded in order: a `decode` call, a
`decode_eof` call, a `read_buf.reserve(1)` call, and a completed channel
read (`room` = spare capacity of `read_buf` when the read was issued, `n` =
bytes delivered; `n = 0` is the end-of-stream signal). -/
inductive REvent where
  | decode
  | decodeEof
  | reserve
  | read (room n : Nat)
deriving DecidableEq

/-- Result of one `poll_next` pull.  `done` is `Poll::Ready(None)` (clean
end of sequence), `pending` is `Poll::Pending`, `panic` marks a Rust panic
(`Option::unwrap` on `None`, or the `assert!(!self.eof)`). -/
inductive PollOutcome (I E : Type) where
  | item (i : I)
  | error (e : E)
  | done
  | pending
  | panic
deriving DecidableEq

/-- The `if self.is_readable` block of `Framed::poll_next` (framed.rs
lines 106-117).  With `eof` set, `decode_eof` is called and the code returns
`Poll::Ready(Some(frame.map(|f| f.unwrap())))`: a final frame becomes an
item, an error becomes an error item, and `Ok(None)` *panics* (the `unwrap`
of a `None`).  Without `eof`, `decode` is called; a frame is returned, an
error propagates via `?`, and `None` clears `is_readable` and falls
through.  Returns `(some outcome | none, state, trace)`, `none` meaning
fall through to the read-more-bytes step. -/
def tryReadable (c : Codec σ I E) (s : Framed σ) :
    Option (PollOutcome I E) × Framed σ × List REvent :=
  if s.is_readable then
    if s.eof then
      let p := c.decode_eof s.codecSt s.read_buf
      let s' : Framed σ := { s with codecSt := p.1, read_buf := p.2.1 }
      match p.2.2 with
      | .frame i => (some (.item i), s', [.decodeEof])
      | .incomplete => (some .panic, s', [.decodeEof])
      | .fail e => (some (.error e), s', [.decodeEof])
    else
      let p := c.decode s.codecSt s.read_buf
      let s' : Framed σ := { s with codecSt := p.1, read_buf := p.2.1 }
      match p.2.2 with
      | .frame i => (some (.item i), s', [.decode])
      | .fail e => (some (.error e), s', [.decode])
      | .incomplete => (none, { s' with is_readable := false }, [.decode])
  else
    (none, s, [])

/-- One pull of `Framed::poll_next` (framed.rs lines 99-131), with the
pending reads of the channel as an explicit oracle.  Returns the outcome,
the final state, the unconsumed part of the read oracle, and the event
trace.  The `loop` is recursion on the oracle: every iteration that does
not return consumes exactly one completed read. -/
def pollNextAux (c : Codec σ I E) :
    List (List Nat) → Framed σ →
      PollOutcome I E × Framed σ × List (List Nat) × List REvent
  | reads, s =>
    let t := tryReadable c s
    match t.1 with
    | some out => (out, t.2.1, reads, t.2.2)
    | none =>
      if t.2.1.eof then
        -- `assert!(!self.eof)` fails
        (.panic, t.2.1, reads, t.2.2)
      else
        -- `self.read_buf.reserve(1)`
        let s2 : Framed σ :=
          { t.2.1 with read_cap := max t.2.1.read_cap (t.2.1.read_buf.length + 1) }
        let room := s2.read_cap - s2.read_buf.length
        match reads with
        | [] => (.pending, s2, [], t.2.2 ++ [.reserve])
        | chunk :: rest =>
          if chunk.isEmpty then
            -- 0-byte read: `self.eof = true`, then `self.is_readable = true`
            let r := pollNextAux c rest { s2 with eof := true, is_readable := true }
            (r.1, r.2.1, r.2.2.1, t.2.2 ++ .reserve :: .read room 0 :: r.2.2.2)
          else
            -- bytes appended at the tail of `read_buf`
            let s3 : Framed σ :=
              { s2 with read_buf := s2.read_buf ++ chunk,
                        read_cap := max s2.read_cap (s2.read_buf.length + chunk.length),
                        is_readable := true }
            let r := pollNextAux c rest s3
            (r.1, r.2.1, r.2.2.1, t.2.2 ++ .reserve :: .read room chunk.length :: r.2.2.2)

/-- `Framed::poll_next` entry point. -/
def poll_next (c : Codec σ I E) (s : Framed σ) (reads : List (List Nat)) :
    PollOutcome I E × Framed σ × List (List Nat) × List REvent :=
  pollNextAux c reads s

/-! ### Write path -/

/-- Events on the write path: a `poll_write` attempt (`n` = byte count the
channel reported accepted, `bs` = the prefix of `write_buf` actually handed
over, i.e. `write_buf.take n`), and a `flush` call on the channel. -/
inductive WEvent where
  | write (n : Nat) (bs : List Nat)
  | flush
deriving DecidableEq

/-- Outcome of `Framed::poll_ready` (the drain-and-flush loop):
`Poll::Ready(Ok(()))`, the locally raised `io::ErrorKind::WriteZero` error,
a propagated codec/channel error of type `E`, `Poll::Pending`, or a panic
(`BytesMut::split_to(n)` with `n` beyond the buffer length). -/
inductive WOutcome (E : Type) where
  | ok
  | errZero
  | err (e : E)
  | pending
  | panic
deriving DecidableEq

/-- The drain-and-flush loop of `Framed::poll_ready` (framed.rs lines
158-185) over the bare write buffer.  `ws` is the channel oracle: the byte
counts successive `poll_write` calls report (exhaustion = `Pending`);
`fp` says whether the final `flush` would suspend.  While the buffer is
non-empty: a write of `0` is the fatal `WriteZero` error (buffer untouched);
a write of `n ≤ len` removes the first `n` bytes (`split_to(n)`); `n > len`
would make `split_to` panic.  Once the buffer is empty the channel is
flushed. -/
def pollReadyAux (E : Type) :
    List Nat → Bool → List Nat → WOutcome E × List Nat × List WEvent
  | _, fp, [] => (if fp then .pending else .ok, [], [.flush])
  | ws, fp, buf@(_ :: _) =>
    match ws with
    | [] => (.pending, buf, [])
    | n :: rest =>
      if n = 0 then
        (.errZero, buf, [.write 0 (buf.take 0)])
      else if n ≤ buf.length then
        let r := pollReadyAux E rest fp (buf.drop n)
        (r.1, r.2.1, .write n (buf.take n) :: r.2.2)
      else
        (.panic, buf, [.write n buf])

/-- `Framed::poll_ready` on a full transport state: only `write_buf` is
touched. -/
def poll_ready (E : Type) (s : Framed σ) (ws : List Nat) (fp : Bool) :
    WOutcome E × Framed σ × List WEvent :=
  let r := pollReadyAux E ws fp s.write_buf
  (r.1, { s with write_buf := r.2.1 }, r.2.2)

/-- Result of `Framed::start_send`: item accepted (encoded and buffered),
rejected with backpressure (`Ok(Poll::Pending(item))`, the caller must
retry), an error (encode error or error propagated from the drain attempt
by `?`), the local `WriteZero` error, or a panic. -/
inductive SendResult (I E : Type) where
  | accepted
  | rejected (item : I)
  | err (e : E)
  | errZero
  | panic
deriving DecidableEq

/-- Everything one `start_send` call produces: its result, the final
transport state, the write events of the drain attempt (if any), how many
drain-and-flush attempts were made, and how many times the encoder was
invoked. -/
structure SendOut (σ I E : Type) where
  result : SendResult I E
  after : Framed σ
  events : List WEvent
  drains : Nat
  encodes : Nat
deriving DecidableEq

/-- The tail of `start_send`: `self.codec.encode(item, &mut self.write_buf)?`
appends the encoded bytes at the tail of `write_buf`, or propagates the
encode error. -/
def encodeStep (c : Codec σ I E) (s : Framed σ) (item : I)
    (tr : List WEvent) (k : Nat) : SendOut σ I E :=
  match c.encode s.codecSt item with
  | (st', Except.ok bs) =>
    ⟨.accepted, { s with codecSt := st', write_buf := s.write_buf ++ bs }, tr, k, 1⟩
  | (st', Except.error e) =>
    ⟨.err e, { s with codecSt := st' }, tr, k, 1⟩

/-- `Framed::start_send` (framed.rs lines 137-151).  If `write_buf` is
already at or above `BACKPRESSURE_BOUNDARY`, one `poll_ready` drain attempt
is made (`self.poll_ready()?`: an error propagates, `Pending` falls
through); if the buffer is still at or above the boundary the item is
rejected with backpressure before the encoder runs; otherwise the item is
encoded onto the tail of `write_buf`. -/
def start_send (c : Codec σ I E) (s : Framed σ) (ws : List Nat) (fp : Bool)
    (item : I) : SendOut σ I E :=
  if BACKPRESSURE_BOUNDARY ≤ s.write_buf.length then
    let r := poll_ready E s ws fp
    match r.1 with
    | .errZero => ⟨.errZero, r.2.1, r.2.2, 1, 0⟩
    | .err e => ⟨.err e, r.2.1, r.2.2, 1, 0⟩
    | .panic => ⟨.panic, r.2.1, r.2.2, 1, 0⟩
    | _ =>
      if BACKPRESSURE_BOUNDARY ≤ r.2.1.write_buf.length then
        ⟨.rejected item, r.2.1, r.2.2, 1, 0⟩
      else
        encodeStep c r.2.1 item r.2.2 1
  else
    encodeStep c s item [] 0

/-- The bytes that actually reached the channel during a drain: the
concatenation of the accepted prefixes of the write events. -/
def channelBytes : List WEvent → List Nat
  | [] => []
  | WEvent.write _ bs :: tr => bs ++ channelBytes tr
  | WEvent.flush :: tr => channelBytes tr

/-- Actions `poll_shutdown` and the drain may request of the channel. -/
inductive IoAction where
  | shutdownReq
  | writeReq
  | flushReq
deriving DecidableEq

/-- `Framed::poll_shutdown` (framed.rs lines 215-217): `self.io.shutdown()`
and nothing else — no field of the transport is touched and no write or
flush is requested. -/
def poll_shutdown (s : Framed σ) : Framed σ × List IoAction :=
  (s, [IoAction.shutdownReq])

/-- `Framed::poll_flush` (framed.rs lines 187-189): the body is `todo!()`,
which panics unconditionally. -/
def poll_flush (E : Type) (s : Framed σ) : WOutcome E × Framed σ :=
  (WOutcome.panic, s)

/-- A minimal concrete codec for concrete runs: every frame is exactly one
byte; `decode_eof` defaults to `decode` (and on an empty buffer reports
`Ok(None)`); `encode` appends the item as a single byte. -/
def unitCodec : Codec Unit Nat Nat where
  decode := fun _ buf =>
    match buf with
    | [] => ((), [], .incomplete)
    | b :: rest => ((), rest, .frame b)
  decode_eof := fun _ buf =>
    match buf with
    | [] => ((), [], .incomplete)
    | b :: rest => ((), rest, .frame b)
  encode := fun _ i => ((), .ok [i])

/-- A codec whose `decode_eof` always produces a frame without consuming
the buffer. -/
def constFrameCodec : Codec Unit Nat Nat where
  decode := fun _ buf => ((), buf, .frame 7)
  decode_eof := fun _ buf => ((), buf, .frame 7)
  encode := fun _ i => ((), .ok [i])

/-- A codec whose incremental `decode` always fails. -/
def failCodec : Codec Unit Nat Nat where
  decode := fun _ buf => ((), buf, .fail 3)
  decode_eof := fun _ buf => ((), buf, .fail 3)
  encode := fun _ i => ((), .ok [i])

/-- The transport state after the channel has reported EOF with an empty
`read_buf` still offered to the decoder. -/
def eofEmptyState : Framed Unit :=
  { codecSt := (), read_buf := [], read_cap := INITIAL_CAPACITY,
    eof := true, is_readable := true, write_buf := [] }

/-- State with one undecodable byte offered to a decoder that fails. -/
def c7State : Framed Unit :=
  { codecSt := (), read_buf := [1], read_cap := INITIAL_CAPACITY,
    eof := false, is_readable := true, write_buf := [] }

/-! ### Claim theorems -/

/-- C1: with `eof = true`, `read_buf` empty and `decode_eof` yielding no
final frame (`Ok(None)`), the claim says the next pull ends the sequence
cleanly; the code instead executes
`Poll::Ready(Some(frame.map(|f| f.unwrap())))` (framed.rs line 109), which
unwraps the absent frame and panics — `Poll::Ready(None)` is never
produced. -/
theorem c1_eof_empty_clean_end_panics :
    (unitCodec.decode_eof () []).2.2 = DecodeResult.incomplete ∧
    eofEmptyState.read_buf = [] ∧
    eofEmptyState.eof = true ∧
    (poll_next unitCodec eofEmptyState []).1 = PollOutcome.panic ∧
    (poll_next unitCodec eofEmptyState []).1 ≠ PollOutcome.done := by decide

/-- C9: `poll_shutdown` only requests the orderly close of the channel:
the transport state is returned untouched and no write or flush request is
made. -/
theorem c9_shutdown_no_drain_no_flush (σ : Type) (s : Framed σ) :
    (poll_shutdown s).1 = s ∧
    (poll_shutdown s).2 = [IoAction.shutdownReq] ∧
    IoAction.writeReq ∉ (poll_shutdown s).2 ∧
    IoAction.flushReq ∉ (poll_shutdown s).2 := by
  refine ⟨rfl, rfl, ?_, ?_⟩ <;> simp [poll_shutdown]

/-- C10: `poll_flush` is `todo!()`: on every transport state it panics and
never returns success or an error. -/
theorem c10_poll_flush_diverges (σ E : Type) (s : Framed σ) :
    (poll_flush E s).1 = WOutcome.panic ∧
    (poll_flush E s).1 ≠ WOutcome.ok ∧
    ∀ e : E, (poll_flush E s).1 ≠ WOutcome.err e := by
  exact ⟨rfl, fun h => WOutcome.noConfusion h, fun e h => WOutcome.noConfusion h⟩

/-- C5: a drain-and-flush on a non-empty `write_buf` whose first
`poll_write` reports 0 bytes fails with the `WriteZero` error immediately:
one single write attempt, the buffer untouched, no retry and no loop. -/
theorem c5_zero_write_first_attempt_fatal (E : Type) (ws : List Nat)
    (fp : Bool) (buf : List Nat) (h : buf ≠ []) :
    pollReadyAux E (0 :: ws) fp buf =
      (WOutcome.errZero, buf, [WEvent.write 0 []]) := by
  cases buf with
  | nil => exact absurd rfl h
  | cons a t => simp [pollReadyAux]

/-- Witness for C5 at a concrete input. -/
theorem c5_zero_write_first_attempt_fatal_witness :
    pollReadyAux Nat (0 :: [3]) false [9, 9] =
      (WOutcome.errZero, [9, 9], [WEvent.write 0 []]) :=
  c5_zero_write_first_attempt_fatal Nat [3] false [9, 9] (by decide)

/-- First pull on an eof-readable state under a codec whose `decode_eof`
keeps producing frames. -/
def c2Pull1 : PollOutcome Nat Nat × Framed Unit × List (List Nat) × List REvent :=
  poll_next constFrameCodec eofEmptyState []

/-- Second pull, resuming from the state the first pull left. -/
def c2Pull2 : PollOutcome Nat Nat × Framed Unit × List (List Nat) × List REvent :=
  poll_next constFrameCodec c2Pull1.2.1 c2Pull1.2.2.1

/-- C2 counterexample: after `decode_eof` yields its final frame on the
first pull, the second pull invokes `decode_eof` again and yields another
item — across the two pulls `decode_eof` runs twice, so it is not invoked
at most once and the sequence is not terminal after the final frame. -/
theorem c2_counterexample_decode_eof_reinvoked :
    c2Pull1.1 = PollOutcome.item 7 ∧
    c2Pull2.1 = PollOutcome.item 7 ∧
    (c2Pull1.2.2.2 ++ c2Pull2.2.2.2).count REvent.decodeEof = 2 := by decide

/-- C2 amended: each single pull in the eof-readable state invokes
`decode_eof` exactly once and returns at once; but there is no terminal
state — the pull leaves `eof` and `is_readable` set and consumes no reads,
so every subsequent pull invokes `decode_eof` again. -/
theorem c2_eof_pull_invokes_decode_eof_once_per_pull (c : Codec σ I E)
    (s : Framed σ) (reads : List (List Nat))
    (h1 : s.eof = true) (h2 : s.is_readable = true) :
    (poll_next c s reads).2.2.2 = [REvent.decodeEof] ∧
    (poll_next c s reads).2.1.eof = true ∧
    (poll_next c s reads).2.1.is_readable = true ∧
    (poll_next c s reads).2.2.1 = reads := by
  simp only [poll_next]
  rw [pollNextAux]
  unfold tryReadable
  simp only [h1, h2, if_true]
  cases hde : (c.decode_eof s.codecSt s.read_buf).2.2 <;>
    simp [hde, h1, h2]

/-- Witness for the amended C2 at a concrete input. -/
theorem c2_eof_pull_invokes_decode_eof_once_per_pull_witness :
    (poll_next constFrameCodec eofEmptyState []).2.2.2 = [REvent.decodeEof] ∧
    (poll_next constFrameCodec eofEmptyState []).2.1.eof = true ∧
    (poll_next constFrameCodec eofEmptyState []).2.1.is_readable = true := by
  have h := c2_eof_pull_invokes_decode_eof_once_per_pull constFrameCodec
    eofEmptyState [] rfl rfl
  exact ⟨h.1, h.2.1, h.2.2.1⟩

/-- First pull on a readable state under a codec whose `decode` fails. -/
def c7Pull1 : PollOutcome Nat Nat × Framed Unit × List (List Nat) × List REvent :=
  poll_next failCodec c7State []

/-- Second pull, resuming from the state the first pull left. -/
def c7Pull2 : PollOutcome Nat Nat × Framed Unit × List (List Nat) × List REvent :=
  poll_next failCodec c7Pull1.2.1 c7Pull1.2.2.1

/-- C7 counterexample: after a pull yields a decode error, the next pull
invokes `decode` again (its trace contains one `decode` event) and yields
the error again — there is no terminal `Done` state. -/
theorem c7_counterexample_decode_reinvoked_after_error :
    c7Pull1.1 = PollOutcome.error 3 ∧
    c7Pull2.1 = PollOutcome.error 3 ∧
    c7Pull2.2.2.2.count REvent.decode = 1 := by decide

/-- C7 amended: a decode error is yielded as the item of the current pull,
but no terminal state exists: the pull performs exactly the one `decode`
call, leaves `eof` and `is_readable` as they were and consumes no reads, so
a subsequent pull invokes `decode` again. -/
theorem c7_decode_error_not_terminal (c : Codec σ I E) (s : Framed σ)
    (reads : List (List Nat)) (e : E)
    (h1 : s.is_readable = true) (h2 : s.eof = false)
    (h3 : (c.decode s.codecSt s.read_buf).2.2 = DecodeResult.fail e) :
    (poll_next c s reads).1 = PollOutcome.error e ∧
    (poll_next c s reads).2.2.2 = [REvent.decode] ∧
    (poll_next c s reads).2.1.eof = false ∧
    (poll_next c s reads).2.1.is_readable = true ∧
    (poll_next c s reads).2.2.1 = reads := by
  simp only [poll_next]
  rw [pollNextAux]
  unfold tryReadable
  simp [h1, h2, h3]

/-- Witness for the amended C7 at a concrete input. -/
theorem c7_decode_error_not_terminal_witness :
    (poll_next failCodec c7State []).1 = PollOutcome.error 3 ∧
    (poll_next failCodec c7State []).2.2.2 = [REvent.decode] ∧
    (poll_next failCodec c7State []).2.1.is_readable = true := by
  have h := c7_decode_error_not_terminal failCodec c7State [] 3 rfl rfl rfl
  exact ⟨h.1, h.2.1, h.2.2.2.1⟩

/-- One item submitted on a fresh transport. -/
def c3Send : SendOut Unit Nat Nat :=
  start_send unitCodec (Framed.new ()) [1] false 5

/-- The drain-and-flush that follows the submission. -/
def c3Drain : WOutcome Nat × Framed Unit × List WEvent :=
  poll_ready Nat c3Send.after [1] false

/-- The bytes the drain put on the channel. -/
def c3Bytes : List Nat := channelBytes c3Drain.2.2

/-- First pull of a fresh transport fed those bytes then end-of-stream. -/
def c3Pull1 : PollOutcome Nat Nat × Framed Unit × List (List Nat) × List REvent :=
  poll_next unitCodec (Framed.new ()) [c3Bytes, []]

/-- Second pull, which should be the clean end of the sequence. -/
def c3Pull2 : PollOutcome Nat Nat × Framed Unit × List (List Nat) × List REvent :=
  poll_next unitCodec c3Pull1.2.1 c3Pull1.2.2.1

/-- C3: the submitted item round-trips (submit, drain, feed the produced
bytes to a fresh transport, pull), but the sequence does not end cleanly:
after the last item the next pull hits the `decode_eof` branch with an
empty buffer and panics (framed.rs line 109) instead of signalling a clean
end. -/
theorem c3_roundtrip_then_end_panics :
    c3Send.result = SendResult.accepted ∧
    c3Drain.1 = WOutcome.ok ∧
    c3Bytes = [5] ∧
    c3Pull1.1 = PollOutcome.item 5 ∧
    c3Pull2.1 = PollOutcome.panic ∧
    c3Pull2.1 ≠ PollOutcome.done := by decide

/-- Helper: if the drain reached the `flush` call, `write_buf` had been
fully drained first. -/
theorem flush_mem_drained (E : Type) (ws : List Nat) :
    ∀ (fp : Bool) (buf : List Nat),
      WEvent.flush ∈ (pollReadyAux E ws fp buf).2.2 →
      (pollReadyAux E ws fp buf).2.1 = [] := by
  induction ws with
  | nil =>
    intro fp buf hmem
    cases buf with
    | nil => simp [pollReadyAux]
    | cons a t => simp [pollReadyAux] at hmem
  | cons n rest ih =>
    intro fp buf hmem
    cases buf with
    | nil => simp [pollReadyAux]
    | cons a t =>
      simp only [pollReadyAux] at hmem ⊢
      by_cases hn : n = 0
      · rw [if_pos hn] at hmem
        simp at hmem
      · rw [if_neg hn] at hmem ⊢
        by_cases hle : n ≤ (a :: t).length
        · rw [if_pos hle] at hmem ⊢
          rcases List.mem_cons.mp hmem with hx | hx
          · exact absurd hx (by simp)
          · exact ih fp _ hx
        · rw [if_neg hle] at hmem
          simp at hmem

/-- C6: while `write_buf` is non-empty each accepted write of `n ≥ 1` bytes
removes exactly the first `n` bytes (`split_to(n)`) and the drain continues
on the remainder; the channel `flush` happens only once `write_buf` is
empty; and a drain on an already-empty `write_buf` issues no writes, goes
straight to `flush`, and (when `flush` is ready) completes with `Ok`. -/
theorem c6_drain_removes_head_flush_when_empty (E : Type) (ws : List Nat)
    (fp : Bool) (buf : List Nat) (n : Nat) :
    (buf ≠ [] → n ≠ 0 → n ≤ buf.length →
      pollReadyAux E (n :: ws) fp buf =
        ((pollReadyAux E ws fp (buf.drop n)).1,
         (pollReadyAux E ws fp (buf.drop n)).2.1,
         WEvent.write n (buf.take n) ::
           (pollReadyAux E ws fp (buf.drop n)).2.2)) ∧
    (WEvent.flush ∈ (pollReadyAux E ws fp buf).2.2 →
      (pollReadyAux E ws fp buf).2.1 = []) ∧
    pollReadyAux E ws fp [] =
      ((if fp then WOutcome.pending else WOutcome.ok), [], [WEvent.flush]) := by
  refine ⟨?_, flush_mem_drained E ws fp buf, ?_⟩
  · intro hbuf hn hle
    cases buf with
    | nil => exact absurd rfl hbuf
    | cons a t =>
      simp only [pollReadyAux]
      rw [if_neg hn, if_pos hle]
  · simp only [pollReadyAux]

/-- Witness for C6 at concrete inputs. -/
theorem c6_drain_removes_head_flush_when_empty_witness :
    (pollReadyAux Nat [2, 1] false [1, 2, 3] =
      ((pollReadyAux Nat [1] false ([1, 2, 3].drop 2)).1,
       (pollReadyAux Nat [1] false ([1, 2, 3].drop 2)).2.1,
       WEvent.write 2 ([1, 2, 3].take 2) ::
         (pollReadyAux Nat [1] false ([1, 2, 3].drop 2)).2.2)) ∧
    (pollReadyAux Nat [2, 1] false [1, 2, 3]).2.1 = [] ∧
    pollReadyAux Nat [2, 1] false [] =
      ((if false then WOutcome.pending else WOutcome.ok), [], [WEvent.flush]) := by
  exact ⟨(c6_drain_removes_head_flush_when_empty Nat [1] false [1, 2, 3] 2).1
      (by decide) (by decide) (by decide),
    (c6_drain_removes_head_flush_when_empty Nat [2, 1] false [1, 2, 3] 2).2.1
      (by decide),
    (c6_drain_removes_head_flush_when_empty Nat [2, 1] false [] 0).2.2⟩

/-- Helper: a zero-byte write on a non-empty buffer is the immediate
`WriteZero` error. -/
theorem pollReadyAux_zero_write (E : Type) (ws : List Nat) (fp : Bool)
    (a : Nat) (t : List Nat) :
    pollReadyAux E (0 :: ws) fp (a :: t) =
      (WOutcome.errZero, a :: t, [WEvent.write 0 []]) := by
  simp [pollReadyAux]

/-- Helper: an accepted write of `n ≥ 1` bytes removes the first `n` bytes
and the drain continues on the remainder, recording the written prefix. -/
theorem pollReadyAux_write_step (E : Type) (ws : List Nat) (fp : Bool)
    (buf : List Nat) (n : Nat) (hbuf : buf ≠ []) (hn : n ≠ 0)
    (hle : n ≤ buf.length) :
    pollReadyAux E (n :: ws) fp buf =
      ((pollReadyAux E ws fp (buf.drop n)).1,
       (pollReadyAux E ws fp (buf.drop n)).2.1,
       WEvent.write n (buf.take n) ::
         (pollReadyAux E ws fp (buf.drop n)).2.2) := by
  cases buf with
  | nil => exact absurd rfl hbuf
  | cons a t =>
    simp only [pollReadyAux]
    rw [if_neg hn, if_pos hle]

/-- Helper: on an empty buffer the drain goes straight to `flush`. -/
theorem pollReadyAux_nil_buf (E : Type) (ws : List Nat) (fp : Bool) :
    pollReadyAux E ws fp [] =
      ((if fp then WOutcome.pending else WOutcome.ok), [], [WEvent.flush]) := by
  simp only [pollReadyAux]

/-- Helper: at or above the boundary, `start_send` makes exactly one drain
attempt whatever its outcome. -/
theorem start_send_drains_one (c : Codec σ I E) (s : Framed σ)
    (ws : List Nat) (fp : Bool) (item : I)
    (h : BACKPRESSURE_BOUNDARY ≤ s.write_buf.length) :
    (start_send c s ws fp item).drains = 1 := by
  unfold start_send
  rw [if_pos h]
  cases ho : (poll_ready E s ws fp).1 <;> simp only [ho] <;>
    try rfl
  all_goals
    by_cases hb : BACKPRESSURE_BOUNDARY ≤ (poll_ready E s ws fp).2.1.write_buf.length
  all_goals
    first
    | (rw [if_pos hb]
       try rfl)
    | (rw [if_neg hb]
       unfold encodeStep
       rcases hec : c.encode (poll_ready E s ws fp).2.1.codecSt item with ⟨st', e | bs⟩ <;>
         rfl)

/-- Helper: drain attempt ends in the zero-write error, `start_send`
propagates it. -/
theorem start_send_drain_errZero (c : Codec σ I E) (s : Framed σ)
    (ws : List Nat) (fp : Bool) (item : I)
    (h : BACKPRESSURE_BOUNDARY ≤ s.write_buf.length)
    (ho : (poll_ready E s ws fp).1 = WOutcome.errZero) :
    start_send c s ws fp item =
      ⟨SendResult.errZero, (poll_ready E s ws fp).2.1,
       (poll_ready E s ws fp).2.2, 1, 0⟩ := by
  unfold start_send
  rw [if_pos h]
  simp only [ho]

/-- Helper: drain succeeded or suspended but the buffer is still at the
boundary — backpressure rejection before the encoder runs. -/
theorem start_send_drain_still_high (c : Codec σ I E) (s : Framed σ)
    (ws : List Nat) (fp : Bool) (item : I)
    (h : BACKPRESSURE_BOUNDARY ≤ s.write_buf.length)
    (hok : (poll_ready E s ws fp).1 = WOutcome.ok ∨
      (poll_ready E s ws fp).1 = WOutcome.pending)
    (hb : BACKPRESSURE_BOUNDARY ≤ (poll_ready E s ws fp).2.1.write_buf.length) :
    start_send c s ws fp item =
      ⟨SendResult.rejected item, (poll_ready E s ws fp).2.1,
       (poll_ready E s ws fp).2.2, 1, 0⟩ := by
  unfold start_send
  rw [if_pos h]
  rcases hok with ho | ho <;> simp only [ho] <;> rw [if_pos hb]

/-- Helper: drain succeeded or suspended and brought the buffer below the
boundary — the item goes to the encoder. -/
theorem start_send_drain_low (c : Codec σ I E) (s : Framed σ)
    (ws : List Nat) (fp : Bool) (item : I)
    (h : BACKPRESSURE_BOUNDARY ≤ s.write_buf.length)
    (hok : (poll_ready E s ws fp).1 = WOutcome.ok ∨
      (poll_ready E s ws fp).1 = WOutcome.pending)
    (hb : ¬BACKPRESSURE_BOUNDARY ≤ (poll_ready E s ws fp).2.1.write_buf.length) :
    start_send c s ws fp item =
      encodeStep c (poll_ready E s ws fp).2.1 item (poll_ready E s ws fp).2.2 1 := by
  unfold start_send
  rw [if_pos h]
  rcases hok with ho | ho <;> simp only [ho] <;> rw [if_neg hb]

/-- Helper: `encodeStep` always reports exactly one encoder invocation. -/
theorem encodeStep_encodes_one (c : Codec σ I E) (s : Framed σ) (item : I)
    (tr : List WEvent) (k : Nat) :
    (encodeStep c s item tr k).encodes = 1 := by
  unfold encodeStep
  rcases hec : c.encode s.codecSt item with ⟨st', e | bs⟩ <;> rfl

/-- Helper: a successful encode appends its bytes at the tail of
`write_buf`. -/
theorem encodeStep_encode_ok (c : Codec σ I E) (s : Framed σ) (item : I)
    (tr : List WEvent) (k : Nat) (st' : σ) (bs : List Nat)
    (hec : c.encode s.codecSt item = (st', Except.ok bs)) :
    encodeStep c s item tr k =
      ⟨SendResult.accepted,
       { s with codecSt := st', write_buf := s.write_buf ++ bs }, tr, k, 1⟩ := by
  unfold encodeStep
  rw [hec]

/-- A transport whose `write_buf` sits exactly at the backpressure
boundary. -/
def c4State : Framed Unit :=
  { codecSt := (), read_buf := [], read_cap := INITIAL_CAPACITY,
    eof := false, is_readable := false,
    write_buf := List.replicate BACKPRESSURE_BOUNDARY 0 }

/-- C4 counterexample: with `write_buf` at the boundary and a channel whose
write reports 0 bytes, the single drain attempt fails with `WriteZero`,
`write_buf` stays at the boundary, and `start_send` propagates the error
(`self.poll_ready()?`) instead of rejecting the submission as backpressure
— so "still ≥ 8 KiB afterwards implies backpressure rejection" is false. -/
theorem c4_counterexample_zero_write_error_not_backpressure :
    BACKPRESSURE_BOUNDARY ≤ c4State.write_buf.length ∧
    (start_send unitCodec c4State [0] false 5).result = SendResult.errZero ∧
    (start_send unitCodec c4State [0] false 5).result ≠ SendResult.rejected 5 ∧
    BACKPRESSURE_BOUNDARY ≤
      (start_send unitCodec c4State [0] false 5).after.write_buf.length ∧
    (start_send unitCodec c4State [0] false 5).encodes = 0 := by
  have hlen : BACKPRESSURE_BOUNDARY ≤ c4State.write_buf.length := by
    simp [c4State]
  have hbuf : c4State.write_buf = 0 :: List.replicate (BACKPRESSURE_BOUNDARY - 1) 0 := by
    show List.replicate BACKPRESSURE_BOUNDARY 0 = _
    rw [show BACKPRESSURE_BOUNDARY = (BACKPRESSURE_BOUNDARY - 1) + 1 from by
      norm_num [BACKPRESSURE_BOUNDARY, INITIAL_CAPACITY]]
    rfl
  have hdrain : pollReadyAux Nat [0] false c4State.write_buf =
      (WOutcome.errZero, c4State.write_buf, [WEvent.write 0 []]) := by
    rw [hbuf]
    exact pollReadyAux_zero_write Nat [] false 0 _
  have ho : (poll_ready Nat c4State [0] false).1 = WOutcome.errZero := by
    simp [poll_ready, hdrain]
  have hwb : (poll_ready Nat c4State [0] false).2.1.write_buf = c4State.write_buf := by
    simp [poll_ready, hdrain]
  have hss := start_send_drain_errZero unitCodec c4State [0] false 5 hlen ho
  refine ⟨hlen, ?_, ?_, ?_, ?_⟩
  · rw [hss]
  · rw [hss]; simp
  · rw [hss]
    show BACKPRESSURE_BOUNDARY ≤ (poll_ready Nat c4State [0] false).2.1.write_buf.length
    rw [hwb]; exact hlen
  · rw [hss]

/-- C4 amended: when `write_buf` is at or above the boundary, exactly one
drain-and-flush attempt is made; if that attempt fails with the zero-write
error, the error propagates (structurally distinct from backpressure) and
the encoder is not invoked; otherwise, if `write_buf` is still at or above
the boundary the submission is rejected as backpressure without invoking
the encoder and with the state exactly as the drain left it; otherwise the
item is encoded and its bytes appended to the tail of `write_buf`.
Backpressure rejection is structurally distinct from every error result. -/
theorem c4_one_drain_then_backpressure (c : Codec σ I E) (s : Framed σ)
    (ws : List Nat) (fp : Bool) (item : I)
    (h : BACKPRESSURE_BOUNDARY ≤ s.write_buf.length) :
    (start_send c s ws fp item).drains = 1 ∧
    ((poll_ready E s ws fp).1 = WOutcome.errZero →
      (start_send c s ws fp item).result = SendResult.errZero ∧
      (start_send c s ws fp item).encodes = 0 ∧
      (start_send c s ws fp item).after = (poll_ready E s ws fp).2.1) ∧
    (((poll_ready E s ws fp).1 = WOutcome.ok ∨
        (poll_ready E s ws fp).1 = WOutcome.pending) →
      (BACKPRESSURE_BOUNDARY ≤ (poll_ready E s ws fp).2.1.write_buf.length →
        (start_send c s ws fp item).result = SendResult.rejected item ∧
        (start_send c s ws fp item).encodes = 0 ∧
        (start_send c s ws fp item).after = (poll_ready E s ws fp).2.1) ∧
      ((poll_ready E s ws fp).2.1.write_buf.length < BACKPRESSURE_BOUNDARY →
        (start_send c s ws fp item).encodes = 1 ∧
        ∀ st' bs,
          c.encode (poll_ready E s ws fp).2.1.codecSt item =
            (st', Except.ok bs) →
          (start_send c s ws fp item).result = SendResult.accepted ∧
          (start_send c s ws fp item).after.write_buf =
            (poll_ready E s ws fp).2.1.write_buf ++ bs)) ∧
    (∀ (i : I) (e : E),
      (SendResult.rejected i : SendResult I E) ≠ SendResult.err e ∧
      (SendResult.rejected i : SendResult I E) ≠ SendResult.errZero) := by
  refine ⟨start_send_drains_one c s ws fp item h, ?_, ?_,
    fun i e => ⟨fun hh => SendResult.noConfusion hh,
                fun hh => SendResult.noConfusion hh⟩⟩
  · intro ho
    rw [start_send_drain_errZero c s ws fp item h ho]
    exact ⟨rfl, rfl, rfl⟩
  · intro hok
    constructor
    · intro hb
      rw [start_send_drain_still_high c s ws fp item h hok hb]
      exact ⟨rfl, rfl, rfl⟩
    · intro hlt
      rw [start_send_drain_low c s ws fp item h hok (by omega)]
      refine ⟨encodeStep_encodes_one c _ item _ 1, ?_⟩
      intro st' bs hec
      rw [encodeStep_encode_ok c _ item _ 1 st' bs hec]
      exact ⟨rfl, rfl⟩

/-- Witness for the amended C4 at a concrete input: buffer at the boundary,
a channel that accepts everything, so the drain empties the buffer and the
item is then encoded and appended. -/
theorem c4_one_drain_then_backpressure_witness :
    (start_send unitCodec c4State [BACKPRESSURE_BOUNDARY] false 5).drains = 1 ∧
    (start_send unitCodec c4State [BACKPRESSURE_BOUNDARY] false 5).result =
      SendResult.accepted ∧
    (start_send unitCodec c4State [BACKPRESSURE_BOUNDARY] false 5).after.write_buf =
      (poll_ready Nat c4State [BACKPRESSURE_BOUNDARY] false).2.1.write_buf ++ [5] := by
  have hlen : BACKPRESSURE_BOUNDARY ≤ c4State.write_buf.length := by
    simp [c4State]
  have hlen' : c4State.write_buf.length = BACKPRESSURE_BOUNDARY := by
    simp [c4State]
  have hbuf : c4State.write_buf = 0 :: List.replicate (BACKPRESSURE_BOUNDARY - 1) 0 := by
    show List.replicate BACKPRESSURE_BOUNDARY 0 = _
    rw [show BACKPRESSURE_BOUNDARY = (BACKPRESSURE_BOUNDARY - 1) + 1 from by
      norm_num [BACKPRESSURE_BOUNDARY, INITIAL_CAPACITY]]
    rfl
  have hdrop : c4State.write_buf.drop BACKPRESSURE_BOUNDARY = [] := by
    rw [← hlen']
    exact List.drop_length _
  have hne : c4State.write_buf ≠ [] := by
    rw [hbuf]; simp
  have hstep := pollReadyAux_write_step Nat [] false c4State.write_buf
    BACKPRESSURE_BOUNDARY hne
    (by norm_num [BACKPRESSURE_BOUNDARY, INITIAL_CAPACITY])
    (le_of_eq hlen'.symm)
  rw [hdrop, pollReadyAux_nil_buf] at hstep
  simp only [Bool.false_eq_true, if_false] at hstep
  have ho : (poll_ready Nat c4State [BACKPRESSURE_BOUNDARY] false).1 =
      WOutcome.ok := by
    simp [poll_ready, hstep]
  have hwb : (poll_ready Nat c4State [BACKPRESSURE_BOUNDARY] false).2.1.write_buf =
      [] := by
    simp [poll_ready, hstep]
  have h := c4_one_drain_then_backpressure unitCodec c4State
    [BACKPRESSURE_BOUNDARY] false 5 hlen
  have h3 := (h.2.2.1 (Or.inl ho)).2
    (by rw [hwb]; norm_num [BACKPRESSURE_BOUNDARY, INITIAL_CAPACITY])
  exact ⟨h.1, (h3.2 () [5] rfl).1, (h3.2 () [5] rfl).2⟩

/-- Helper: the decode block never changes `eof`. -/
theorem tryReadable_eof (c : Codec σ I E) (s : Framed σ) :
    (tryReadable c s).2.1.eof = s.eof := by
  unfold tryReadable
  by_cases hr : s.is_readable = true
  · rw [if_pos hr]
    by_cases he : s.eof = true
    · rw [if_pos he]
      cases hde : (c.decode_eof s.codecSt s.read_buf).2.2 <;> simp [hde]
    · rw [if_neg he]
      cases hde : (c.decode s.codecSt s.read_buf).2.2 <;> simp [hde]
  · rw [if_neg hr]

/-- Helper: the decode block records no completed-read event. -/
theorem tryReadable_no_read (c : Codec σ I E) (s : Framed σ) (room n : Nat) :
    REvent.read room n ∉ (tryReadable c s).2.2 := by
  unfold tryReadable
  by_cases hr : s.is_readable = true
  · rw [if_pos hr]
    by_cases he : s.eof = true
    · rw [if_pos he]
      cases hde : (c.decode_eof s.codecSt s.read_buf).2.2 <;> simp [hde]
    · rw [if_neg he]
      cases hde : (c.decode s.codecSt s.read_buf).2.2 <;> simp [hde]
  · rw [if_neg hr]
    simp

/-- Helper: once `eof` is set, a pull leaves it set (nothing ever clears
it). -/
theorem pollNextAux_eof_mono (c : Codec σ I E) (reads : List (List Nat))
    (s : Framed σ) (h : s.eof = true) :
    (pollNextAux c reads s).2.1.eof = true := by
  rw [pollNextAux]
  have he : (tryReadable c s).2.1.eof = true := (tryReadable_eof c s).trans h
  cases hto : (tryReadable c s).1 with
  | some out =>
    simp only [hto]
    exact he
  | none =>
    simp only [hto]
    rw [if_pos he]
    exact he

/-- Helper: a completed read of 0 bytes during a pull leaves the transport
with `eof = true`. -/
theorem pollNextAux_read_zero_eof (c : Codec σ I E) (reads : List (List Nat)) :
    ∀ (s : Framed σ) (room : Nat),
      REvent.read room 0 ∈ (pollNextAux c reads s).2.2.2 →
      (pollNextAux c reads s).2.1.eof = true := by
  induction reads with
  | nil =>
    intro s room hmem
    rw [pollNextAux] at hmem ⊢
    cases hto : (tryReadable c s).1 with
    | some out =>
      simp only [hto] at hmem ⊢
      exact absurd hmem (tryReadable_no_read c s room 0)
    | none =>
      by_cases he : (tryReadable c s).2.1.eof = true
      · simp only [hto] at hmem ⊢
        rw [if_pos he] at hmem ⊢
        exact he
      · simp only [hto] at hmem ⊢
        rw [if_neg he] at hmem ⊢
        simp only [List.mem_append, List.mem_singleton] at hmem
        rcases hmem with hx | hx
        · exact absurd hx (tryReadable_no_read c s room 0)
        · cases hx
  | cons chunk rest ih =>
    intro s room hmem
    rw [pollNextAux] at hmem ⊢
    cases hto : (tryReadable c s).1 with
    | some out =>
      simp only [hto] at hmem ⊢
      exact absurd hmem (tryReadable_no_read c s room 0)
    | none =>
      by_cases he : (tryReadable c s).2.1.eof = true
      · simp only [hto] at hmem ⊢
        rw [if_pos he] at hmem ⊢
        exact he
      · simp only [hto] at hmem ⊢
        rw [if_neg he] at hmem ⊢
        by_cases hc : chunk.isEmpty = true
        · rw [if_pos hc] at hmem ⊢
          exact pollNextAux_eof_mono c rest _ rfl
        · rw [if_neg hc] at hmem ⊢
          simp only [List.mem_append, List.mem_cons] at hmem
          rcases hmem with hx | hx | hx | hx
          · exact absurd hx (tryReadable_no_read c s room 0)
          · cases hx
          · injection hx with h1 h2
            have hz : chunk = [] := List.length_eq_zero.mp h2.symm
            rw [hz] at hc
            exact absurd rfl hc
          · exact ih _ room hx

/-- Helper: every completed read recorded during a pull was issued with at
least one spare byte of buffer room (because of `reserve(1)`). -/
theorem pollNextAux_read_room (c : Codec σ I E) (reads : List (List Nat)) :
    ∀ (s : Framed σ) (room n : Nat),
      REvent.read room n ∈ (pollNextAux c reads s).2.2.2 → 1 ≤ room := by
  induction reads with
  | nil =>
    intro s room n hmem
    rw [pollNextAux] at hmem
    cases hto : (tryReadable c s).1 with
    | some out =>
      simp only [hto] at hmem
      exact absurd hmem (tryReadable_no_read c s room n)
    | none =>
      by_cases he : (tryReadable c s).2.1.eof = true
      · simp only [hto] at hmem
        rw [if_pos he] at hmem
        exact absurd hmem (tryReadable_no_read c s room n)
      · simp only [hto] at hmem
        rw [if_neg he] at hmem
        simp only [List.mem_append, List.mem_singleton] at hmem
        rcases hmem with hx | hx
        · exact absurd hx (tryReadable_no_read c s room n)
        · cases hx
  | cons chunk rest ih =>
    intro s room n hmem
    rw [pollNextAux] at hmem
    cases hto : (tryReadable c s).1 with
    | some out =>
      simp only [hto] at hmem
      exact absurd hmem (tryReadable_no_read c s room n)
    | none =>
      by_cases he : (tryReadable c s).2.1.eof = true
      · simp only [hto] at hmem
        rw [if_pos he] at hmem
        exact absurd hmem (tryReadable_no_read c s room n)
      · simp only [hto] at hmem
        rw [if_neg he] at hmem
        have hroom : 1 ≤
            max (tryReadable c s).2.1.read_cap
              ((tryReadable c s).2.1.read_buf.length + 1) -
              (tryReadable c s).2.1.read_buf.length := by
          have hmax := Nat.le_max_right (tryReadable c s).2.1.read_cap
            ((tryReadable c s).2.1.read_buf.length + 1)
          omega
        by_cases hc : chunk.isEmpty = true
        · rw [if_pos hc] at hmem
          simp only [List.mem_append, List.mem_cons] at hmem
          rcases hmem with hx | hx | hx | hx
          · exact absurd hx (tryReadable_no_read c s room n)
          · cases hx
          · cases hx
            exact hroom
          · exact ih _ room n hx
        · rw [if_neg hc] at hmem
          simp only [List.mem_append, List.mem_cons] at hmem
          rcases hmem with hx | hx | hx | hx
          · exact absurd hx (tryReadable_no_read c s room n)
          · cases hx
          · cases hx
            exact hroom
          · exact ih _ room n hx

/-- Helper: encoding touches only the codec state and `write_buf`. -/
theorem encodeStep_eof (c : Codec σ I E) (s : Framed σ) (item : I)
    (tr : List WEvent) (k : Nat) :
    (encodeStep c s item tr k).after.eof = s.eof := by
  unfold encodeStep
  rcases hec : c.encode s.codecSt item with ⟨st', e | bs⟩ <;> rfl

/-- Helper: submitting an item never changes `eof`. -/
theorem start_send_eof (c : Codec σ I E) (s : Framed σ) (ws : List Nat)
    (fp : Bool) (item : I) :
    (start_send c s ws fp item).after.eof = s.eof := by
  unfold start_send
  by_cases h : BACKPRESSURE_BOUNDARY ≤ s.write_buf.length
  · rw [if_pos h]
    cases ho : (poll_ready E s ws fp).1 <;> simp only [ho] <;>
      try rfl
    all_goals
      by_cases hb : BACKPRESSURE_BOUNDARY ≤ (poll_ready E s ws fp).2.1.write_buf.length
    all_goals
      first
      | (rw [if_pos hb]
         try rfl)
      | (rw [if_neg hb]
         exact encodeStep_eof c _ item _ 1)
  · rw [if_neg h]
    exact encodeStep_eof c s item [] 0

/-- C8: on the read path, every completed read was issued with at least one
spare byte of buffer room (`reserve(1)` precedes it); a 0-byte read leaves
the transport with `eof = true`; and once `eof` is true no operation of the
transport — another pull, a drain, a submit, a shutdown, a flush — resets
it. -/
theorem c8_reserve_eof_invariants (c : Codec σ I E)
    (reads : List (List Nat)) (s : Framed σ) (ws : List Nat) (fp : Bool)
    (item : I) :
    (∀ room n, REvent.read room n ∈ (poll_next c s reads).2.2.2 → 1 ≤ room) ∧
    (∀ room, REvent.read room 0 ∈ (poll_next c s reads).2.2.2 →
      (poll_next c s reads).2.1.eof = true) ∧
    (s.eof = true → (poll_next c s reads).2.1.eof = true) ∧
    (poll_ready E s ws fp).2.1.eof = s.eof ∧
    (start_send c s ws fp item).after.eof = s.eof ∧
    (poll_shutdown s).1.eof = s.eof ∧
    (poll_flush E s).2.eof = s.eof := by
  exact ⟨fun room n hm => pollNextAux_read_room c reads s room n hm,
    fun room hm => pollNextAux_read_zero_eof c reads s room hm,
    fun h => pollNextAux_eof_mono c reads s h,
    rfl, start_send_eof c s ws fp item, rfl, rfl⟩

/-- Witness for C8 at concrete inputs: a fresh transport pulled against a
channel that immediately reports end-of-stream. -/
theorem c8_reserve_eof_invariants_witness :
    (1 ≤ INITIAL_CAPACITY) ∧
    (poll_next unitCodec (Framed.new ()) [[]]).2.1.eof = true ∧
    (poll_next unitCodec eofEmptyState []).2.1.eof = true ∧
    (poll_ready Nat (Framed.new ()) [1] false).2.1.eof = (Framed.new ()).eof ∧
    (start_send unitCodec (Framed.new ()) [1] false 0).after.eof =
      (Framed.new ()).eof ∧
    (poll_shutdown (Framed.new ())).1.eof = (Framed.new ()).eof := by
  obtain ⟨h1, h2, _, h4, h5, h6, _⟩ :=
    c8_reserve_eof_invariants unitCodec [[]] (Framed.new ()) [1] false 0
  have h3 := (c8_reserve_eof_invariants unitCodec [] eofEmptyState
    [1] false 0).2.2.1 rfl
  exact ⟨h1 INITIAL_CAPACITY 0 (by decide), h2 INITIAL_CAPACITY (by decide),
    h3, h4, h5, h6⟩

end FramedRs
